import Mathlib

/-!
# openai_completion: request resolution and row mapping

A shallow embedding of `listCompletion` from
`openai/table_openai_completion.go`: the hydrate function of the
`openai_completion` table.  It starts from a fixed default completion request,
overlays the fields present in the `settings` qualifier, overlays the `prompt`
qualifier, calls the remote completion endpoint once and streams one row per
returned choice.

Modelling conventions

* Go `string` is `String`, Go `int` is `Int`, Go `bool` is `Bool`.  No
  arithmetic is performed on any of them, values are only copied and compared
  with the empty string.
* Go `float32` values are only copied, never computed with; a value is kept as
  its IEEE-754 binary32 bit pattern (`GoFloat32`).
* A Go pointer field `*T` is `Option T` (`nil` is `none`).  A Go slice or map is
  `Option` of its contents as well, so that the `nil` slice and the empty
  non-nil slice stay distinct, as the `!= nil` tests of the source require.
* A Go call returning `(value, error)` returns a pair whose second component
  is `Option Err` (`nil` is `none`); the value is present on both paths.
* The collaborators that live outside the file (`connect`, `json.Unmarshal`
  into a `CompletionRequestQual`, `conn.CreateCompletion`) are the fields of
  `Env`.  The client connection, the error values and the log-probability
  record of the client library are type parameters.
* `d.StreamListItem` appends to the list of streamed rows; every call of
  `conn.CreateCompletion` is recorded, in order, with its argument.
* Logging has no effect on control flow and is left out.
-/

namespace OpenAI

/-! ## Data model -/

/-- A Go `float32`, kept as its IEEE-754 binary32 bit pattern. -/
structure GoFloat32 where
  bits : Nat
deriving DecidableEq, Repr

/-- The `float32` nearest to the Go constant `0.7` (bit pattern `0x3F333333`). -/
def f32_0_7 : GoFloat32 := ⟨0x3F333333⟩

/-- The `float32` value `1` (bit pattern `0x3F800000`). -/
def f32_1 : GoFloat32 := ⟨0x3F800000⟩

/-- The `float32` value `0`, also the zero value of the type. -/
def f32_0 : GoFloat32 := ⟨0⟩

/-- The request record of the client library, `gogpt.CompletionRequest`, with
the sixteen fields that `listCompletion` reads or writes. -/
structure CompletionRequest where
  Model : String
  Prompt : String
  Suffix : String
  MaxTokens : Int
  Temperature : GoFloat32
  TopP : GoFloat32
  N : Int
  Stream : Bool
  LogProbs : Int
  Echo : Bool
  Stop : Option (List String)
  PresencePenalty : GoFloat32
  FrequencyPenalty : GoFloat32
  BestOf : Int
  LogitBias : Option (List (String × Int))
  User : String
deriving DecidableEq, Repr

/-- The settings overlay, `CompletionRequestQual`: every field is a pointer, a
slice or a map, and `none` stands for `nil`. -/
structure CompletionRequestQual where
  Model : Option String
  Prompt : Option String
  Suffix : Option String
  MaxTokens : Option Int
  Temperature : Option GoFloat32
  TopP : Option GoFloat32
  N : Option Int
  Stream : Option Bool
  LogProbs : Option Int
  Echo : Option Bool
  Stop : Option (List String)
  PresencePenalty : Option GoFloat32
  FrequencyPenalty : Option GoFloat32
  BestOf : Option Int
  LogitBias : Option (List (String × Int))
  User : Option String
deriving DecidableEq, Repr

/-- One generated continuation, `gogpt.CompletionChoice`.  The structure of the
log-probability detail belongs to the client library and is the parameter
`LP`. -/
structure CompletionChoice (LP : Type) where
  Text : String
  Index : Int
  FinishReason : String
  LogProbs : LP
deriving DecidableEq, Repr

/-- The part of `gogpt.CompletionResponse` that `listCompletion` reads. -/
structure CompletionResponse (LP : Type) where
  Choices : List (CompletionChoice LP)
deriving DecidableEq, Repr

/-- An output row, `CompletionRow`: a choice together with the prompt of the
request that produced it. -/
structure CompletionRow (LP : Type) where
  CompletionChoice : CompletionChoice LP
  Prompt : String
deriving DecidableEq, Repr

/-- The equality qualifiers of a query, `d.EqualsQuals`, at the two key columns
the table declares.  `prompt` is the entry of the string column `prompt` with
its string value, `settings` the entry of the JSON column `settings` with its
JSON text; `none` is a missing (nil) entry. -/
structure QueryData where
  prompt : Option String
  settings : Option String
deriving DecidableEq, Repr

/-- Getter `GetJsonbValue` of a qualifier entry: the JSON text, and the empty
string on a nil entry. -/
def GetJsonbValue : Option String → String
  | some s => s
  | none => ""

/-- The framework helper `d.EqualsQualString(key)` on a qualifier entry: the
string value, and the empty string on a missing entry. -/
def EqualsQualString : Option String → String
  | some s => s
  | none => ""

/-- The collaborators of one invocation of `listCompletion`. -/
structure Env (Conn Err LP : Type) where
  /-- Result of `connect(ctx, d)`. -/
  connect : QueryData → Conn × Option Err
  /-- Result of `json.Unmarshal([]byte(s), &crQual)` on a fresh `crQual`: the
  contents of `crQual` afterwards and the returned error. -/
  Unmarshal : String → CompletionRequestQual × Option Err
  /-- Result of `conn.CreateCompletion(ctx, cr)`. -/
  CreateCompletion : Conn → CompletionRequest → CompletionResponse LP × Option Err

/-- What an invocation of `listCompletion` does: the error it returns (`none`
for `nil`; the first return value is always `nil`), the rows it streams, in
order, and the requests it passes to the remote completion call, in order. -/
structure Outcome (Err LP : Type) where
  err : Option Err
  rows : List (CompletionRow LP)
  calls : List CompletionRequest
deriving DecidableEq, Repr

/-! ## The program -/

/-- The default settings with which `listCompletion` starts (the literal of
lines 76-85; the fields it does not name have their zero value). -/
def defaultCompletionRequest : CompletionRequest where
  Model := "text-davinci-003"
  Prompt := ""
  Suffix := ""
  MaxTokens := 256
  Temperature := f32_0_7
  TopP := f32_1
  N := 0
  Stream := false
  LogProbs := 0
  Echo := false
  Stop := some []
  PresencePenalty := f32_0
  FrequencyPenalty := f32_0
  BestOf := 1
  LogitBias := none
  User := ""

/-- The sixteen `if crQual.F != nil { cr.F = ... }` statements of
`listCompletion` (lines 97-144), in the order of the source. -/
def applySettings (cr : CompletionRequest) (crQual : CompletionRequestQual) :
    CompletionRequest :=
  let cr := match crQual.Model with
    | some v => { cr with Model := v }
    | none => cr
  let cr := match crQual.Prompt with
    | some v => { cr with Prompt := v }
    | none => cr
  let cr := match crQual.Suffix with
    | some v => { cr with Suffix := v }
    | none => cr
  let cr := match crQual.MaxTokens with
    | some v => { cr with MaxTokens := v }
    | none => cr
  let cr := match crQual.Temperature with
    | some v => { cr with Temperature := v }
    | none => cr
  let cr := match crQual.TopP with
    | some v => { cr with TopP := v }
    | none => cr
  let cr := match crQual.N with
    | some v => { cr with N := v }
    | none => cr
  let cr := match crQual.Stream with
    | some v => { cr with Stream := v }
    | none => cr
  let cr := match crQual.LogProbs with
    | some v => { cr with LogProbs := v }
    | none => cr
  let cr := match crQual.Echo with
    | some v => { cr with Echo := v }
    | none => cr
  let cr := match crQual.Stop with
    | some v => { cr with Stop := some v }
    | none => cr
  let cr := match crQual.PresencePenalty with
    | some v => { cr with PresencePenalty := v }
    | none => cr
  let cr := match crQual.FrequencyPenalty with
    | some v => { cr with FrequencyPenalty := v }
    | none => cr
  let cr := match crQual.BestOf with
    | some v => { cr with BestOf := v }
    | none => cr
  let cr := match crQual.LogitBias with
    | some v => { cr with LogitBias := some v }
    | none => cr
  let cr := match crQual.User with
    | some v => { cr with User := v }
    | none => cr
  cr

/-- The settings block of `listCompletion` (lines 87-145): when the settings
string is not empty it is unmarshalled, an error aborts, and otherwise the
overlay is applied to `cr`; when it is empty `cr` is left as it is. -/
def overlaySettings {Conn Err LP : Type} (env : Env Conn Err LP) (d : QueryData)
    (cr : CompletionRequest) : Except Err CompletionRequest :=
  let settingsString := GetJsonbValue d.settings
  if settingsString ≠ "" then
    match env.Unmarshal settingsString with
    | (_, some err) => Except.error err
    | (crQual, none) => Except.ok (applySettings cr crQual)
  else
    Except.ok cr

/-- The statement `if d.EqualsQuals["prompt"] != nil { cr.Prompt =
d.EqualsQualString("prompt") }` (lines 150-152). -/
def overlayPrompt (d : QueryData) (cr : CompletionRequest) : CompletionRequest :=
  match d.prompt with
  | some _ => { cr with Prompt := EqualsQualString d.prompt }
  | none => cr

/-- The request as resolved by `listCompletion` before the empty-prompt test
(lines 76-152): the defaults, then the settings, then the prompt qualifier; or
the error of the settings block. -/
def resolveRequest {Conn Err LP : Type} (env : Env Conn Err LP) (d : QueryData) :
    Except Err CompletionRequest :=
  match overlaySettings env d defaultCompletionRequest with
  | Except.error err => Except.error err
  | Except.ok cr => Except.ok (overlayPrompt d cr)

/-- The loop `for _, i := range resp.Choices { d.StreamListItem(ctx,
CompletionRow{i, cr.Prompt}) }` (lines 167-170), from the rows streamed so
far. -/
def streamChoices {LP : Type} (Prompt : String) :
    List (CompletionChoice LP) → List (CompletionRow LP) → List (CompletionRow LP)
  | [], streamed => streamed
  | i :: rest, streamed => streamChoices Prompt rest (streamed ++ [⟨i, Prompt⟩])

/-- The hydrate function `listCompletion` (lines 67-173): the connection guard,
the resolution of the request, the empty-prompt test, the single remote call and
the streaming of its choices. -/
def listCompletion {Conn Err LP : Type} (env : Env Conn Err LP) (d : QueryData) :
    Outcome Err LP :=
  match env.connect d with
  | (_, some err) => { err := some err, rows := [], calls := [] }
  | (conn, none) =>
    match resolveRequest env d with
    | Except.error err => { err := some err, rows := [], calls := [] }
    | Except.ok cr =>
      if cr.Prompt = "" then
        { err := none, rows := [], calls := [] }
      else
        match env.CreateCompletion conn cr with
        | (_, some err) => { err := some err, rows := [], calls := [cr] }
        | (resp, none) =>
          { err := none, rows := streamChoices cr.Prompt resp.Choices [], calls := [cr] }

/-! ## Specification vocabulary -/

/-- The reading of "a field present in the overlay replaces the default, an
absent field leaves it unchanged" for one field: `o` is the overlay's field,
`dflt` the field of the configuration before, `res` the field after. -/
def FieldOverlaid {α : Type} (o : Option α) (dflt res : α) : Prop :=
  (∀ v, o = some v → res = v) ∧ (o = none → res = dflt)

/-! ## Sample collaborators (used to instantiate the theorems) -/

/-- The zero value of `CompletionRequestQual`: every field `nil`. -/
def zeroQual : CompletionRequestQual where
  Model := none
  Prompt := none
  Suffix := none
  MaxTokens := none
  Temperature := none
  TopP := none
  N := none
  Stream := none
  LogProbs := none
  Echo := none
  Stop := none
  PresencePenalty := none
  FrequencyPenalty := none
  BestOf := none
  LogitBias := none
  User := none

/-- The settings text `{"prompt":"A"}`. -/
def settingsPromptA : String := "\x7b\"prompt\":\"A\"\x7d"

/-- The settings text `{"prompt":""}`. -/
def settingsPromptEmpty : String := "\x7b\"prompt\":\"\"\x7d"

/-- The settings text `{"model":"text-ada-001","max_tokens":16,"stop":[]}`. -/
def settingsAda : String :=
  "\x7b\"model\":\"text-ada-001\",\"max_tokens\":16,\"stop\":[]\x7d"

/-- The settings text `{}`. -/
def settingsNoFields : String := "\x7b\x7d"

/-- The truncated settings text `{"prompt":`. -/
def settingsTruncated : String := "\x7b\"prompt\":"

/-- A table standing for `json.Unmarshal` on the sample settings texts: the
four well-formed ones give their overlay, every other text is rejected. -/
def sampleUnmarshal (s : String) : CompletionRequestQual × Option String :=
  if s = settingsPromptA then ({ zeroQual with Prompt := some "A" }, none)
  else if s = settingsPromptEmpty then ({ zeroQual with Prompt := some "" }, none)
  else if s = settingsAda then
    ({ zeroQual with Model := some "text-ada-001", MaxTokens := some 16, Stop := some [] }, none)
  else if s = settingsNoFields then (zeroQual, none)
  else (zeroQual, some "unexpected end of JSON input")

/-- A response with two choices. -/
def sampleResponse : CompletionResponse Nat where
  Choices := [⟨" world", 0, "stop", 7⟩, ⟨" there", 1, "length", 9⟩]

/-- Collaborators that all succeed. -/
def sampleEnv : Env Unit String Nat where
  connect := fun _ => ((), none)
  Unmarshal := sampleUnmarshal
  CreateCompletion := fun _ _ => (sampleResponse, none)

/-- Collaborators whose remote call fails, with a response value that still
carries choices. -/
def remoteDownEnv : Env Unit String Nat where
  connect := fun _ => ((), none)
  Unmarshal := sampleUnmarshal
  CreateCompletion := fun _ _ => (sampleResponse, some "status code: 401")

/-- Collaborators whose connection acquisition fails. -/
def noConnEnv : Env Unit String Nat where
  connect := fun _ => ((), some "api_key must be configured")
  Unmarshal := sampleUnmarshal
  CreateCompletion := fun _ _ => (sampleResponse, none)

/-- Query `where settings = '{"model":"text-ada-001","max_tokens":16,"stop":[]}'`. -/
def adaQuery : QueryData where
  prompt := none
  settings := some settingsAda

/-- Query `where prompt = 'B' and settings = '{"prompt":"A"}'`. -/
def overrideQuery : QueryData where
  prompt := some "B"
  settings := some settingsPromptA

/-- Query `where prompt = 'Hello'`. -/
def helloQuery : QueryData where
  prompt := some "Hello"
  settings := none

/-- Query `where settings = '{"prompt":"A"}'`. -/
def settingsPromptQuery : QueryData where
  prompt := none
  settings := some settingsPromptA

/-- Query `where prompt = '' and settings = '{"prompt":"A"}'`. -/
def emptyOverrideQuery : QueryData where
  prompt := some ""
  settings := some settingsPromptA

/-- Query `where settings = '{"prompt":""}'`. -/
def emptySettingsPromptQuery : QueryData where
  prompt := none
  settings := some settingsPromptEmpty

/-- Query `where settings = '{}'`. -/
def noFieldsQuery : QueryData where
  prompt := none
  settings := some settingsNoFields

/-- Query with the truncated settings text `{"prompt":`. -/
def malformedQuery : QueryData where
  prompt := none
  settings := some settingsTruncated

/-- Query with the truncated settings text and `prompt = 'Hello'`. -/
def malformedPromptQuery : QueryData where
  prompt := some "Hello"
  settings := some settingsTruncated

/-- Query without qualifiers. -/
def noQualsQuery : QueryData where
  prompt := none
  settings := none

/-! ## Lemmas on the settings overlay -/

/-- Closed form of the sixteen conditional assignments: each field of the
result is the overlay's value when present and the field of `cr` otherwise. -/
theorem applySettings_eq (cr : CompletionRequest) (q : CompletionRequestQual) :
    applySettings cr q =
      { Model := q.Model.getD cr.Model
        Prompt := q.Prompt.getD cr.Prompt
        Suffix := q.Suffix.getD cr.Suffix
        MaxTokens := q.MaxTokens.getD cr.MaxTokens
        Temperature := q.Temperature.getD cr.Temperature
        TopP := q.TopP.getD cr.TopP
        N := q.N.getD cr.N
        Stream := q.Stream.getD cr.Stream
        LogProbs := q.LogProbs.getD cr.LogProbs
        Echo := q.Echo.getD cr.Echo
        Stop := (q.Stop.map some).getD cr.Stop
        PresencePenalty := q.PresencePenalty.getD cr.PresencePenalty
        FrequencyPenalty := q.FrequencyPenalty.getD cr.FrequencyPenalty
        BestOf := q.BestOf.getD cr.BestOf
        LogitBias := (q.LogitBias.map some).getD cr.LogitBias
        User := q.User.getD cr.User } := by
  unfold applySettings
  lift_lets
  intro c1 c2 c3 c4 c5 c6 c7 c8 c9 c10 c11 c12 c13 c14 c15 c16
  have h1 : c1 = { cr with Model := q.Model.getD cr.Model } := by
    show (match q.Model with | some v => _ | none => _) = _
    cases q.Model <;> rfl
  have h2 : c2 = { c1 with Prompt := q.Prompt.getD c1.Prompt } := by
    show (match q.Prompt with | some v => _ | none => _) = _
    cases q.Prompt <;> rfl
  have h3 : c3 = { c2 with Suffix := q.Suffix.getD c2.Suffix } := by
    show (match q.Suffix with | some v => _ | none => _) = _
    cases q.Suffix <;> rfl
  have h4 : c4 = { c3 with MaxTokens := q.MaxTokens.getD c3.MaxTokens } := by
    show (match q.MaxTokens with | some v => _ | none => _) = _
    cases q.MaxTokens <;> rfl
  have h5 : c5 = { c4 with Temperature := q.Temperature.getD c4.Temperature } := by
    show (match q.Temperature with | some v => _ | none => _) = _
    cases q.Temperature <;> rfl
  have h6 : c6 = { c5 with TopP := q.TopP.getD c5.TopP } := by
    show (match q.TopP with | some v => _ | none => _) = _
    cases q.TopP <;> rfl
  have h7 : c7 = { c6 with N := q.N.getD c6.N } := by
    show (match q.N with | some v => _ | none => _) = _
    cases q.N <;> rfl
  have h8 : c8 = { c7 with Stream := q.Stream.getD c7.Stream } := by
    show (match q.Stream with | some v => _ | none => _) = _
    cases q.Stream <;> rfl
  have h9 : c9 = { c8 with LogProbs := q.LogProbs.getD c8.LogProbs } := by
    show (match q.LogProbs with | some v => _ | none => _) = _
    cases q.LogProbs <;> rfl
  have h10 : c10 = { c9 with Echo := q.Echo.getD c9.Echo } := by
    show (match q.Echo with | some v => _ | none => _) = _
    cases q.Echo <;> rfl
  have h11 : c11 = { c10 with Stop := (q.Stop.map some).getD c10.Stop } := by
    show (match q.Stop with | some v => _ | none => _) = _
    cases q.Stop <;> rfl
  have h12 : c12 = { c11 with PresencePenalty := q.PresencePenalty.getD c11.PresencePenalty } := by
    show (match q.PresencePenalty with | some v => _ | none => _) = _
    cases q.PresencePenalty <;> rfl
  have h13 : c13 = { c12 with FrequencyPenalty := q.FrequencyPenalty.getD c12.FrequencyPenalty } := by
    show (match q.FrequencyPenalty with | some v => _ | none => _) = _
    cases q.FrequencyPenalty <;> rfl
  have h14 : c14 = { c13 with BestOf := q.BestOf.getD c13.BestOf } := by
    show (match q.BestOf with | some v => _ | none => _) = _
    cases q.BestOf <;> rfl
  have h15 : c15 = { c14 with LogitBias := (q.LogitBias.map some).getD c14.LogitBias } := by
    show (match q.LogitBias with | some v => _ | none => _) = _
    cases q.LogitBias <;> rfl
  have h16 : c16 = { c15 with User := q.User.getD c15.User } := by
    show (match q.User with | some v => _ | none => _) = _
    cases q.User <;> rfl
  clear_value c1 c2 c3 c4 c5 c6 c7 c8 c9 c10 c11 c12 c13 c14 c15 c16
  subst h1 h2 h3 h4 h5 h6 h7 h8 h9 h10 h11 h12 h13 h14 h15 h16
  rfl

theorem fieldOverlaid_getD {α : Type} (o : Option α) (dflt : α) :
    FieldOverlaid o dflt (o.getD dflt) := by
  cases o <;> simp [FieldOverlaid]

theorem overlaySettings_of_empty {Conn Err LP : Type} (env : Env Conn Err LP)
    (d : QueryData) (cr : CompletionRequest) (hs : GetJsonbValue d.settings = "") :
    overlaySettings env d cr = Except.ok cr := by
  simp [overlaySettings, hs]

theorem overlaySettings_of_parsed {Conn Err LP : Type} (env : Env Conn Err LP)
    (d : QueryData) (cr : CompletionRequest) (O : CompletionRequestQual)
    (hs : GetJsonbValue d.settings ≠ "")
    (hO : env.Unmarshal (GetJsonbValue d.settings) = (O, none)) :
    overlaySettings env d cr = Except.ok (applySettings cr O) := by
  simp [overlaySettings, hs, hO]

theorem overlaySettings_of_malformed {Conn Err LP : Type} (env : Env Conn Err LP)
    (d : QueryData) (cr : CompletionRequest) (q : CompletionRequestQual) (e : Err)
    (hs : GetJsonbValue d.settings ≠ "")
    (hq : env.Unmarshal (GetJsonbValue d.settings) = (q, some e)) :
    overlaySettings env d cr = Except.error e := by
  simp [overlaySettings, hs, hq]

/-- The remote call is made at most once, and only with the resolved request. -/
theorem calls_subset_resolved {Conn Err LP : Type} (env : Env Conn Err LP)
    (d : QueryData) (r : CompletionRequest) (hr : r ∈ (listCompletion env d).calls) :
    resolveRequest env d = Except.ok r ∧ r.Prompt ≠ "" := by
  unfold listCompletion at hr
  rcases hc : env.connect d with ⟨conn, _ | e⟩
  · rw [hc] at hr
    rcases hres : resolveRequest env d with e | cr
    · simp [hres] at hr
    · simp only [hres] at hr
      by_cases hp : cr.Prompt = ""
      · simp [hp] at hr
      · rw [if_neg hp] at hr
        rcases hrem : env.CreateCompletion conn cr with ⟨resp, _ | e⟩
        · simp [hrem] at hr
          subst hr
          exact ⟨rfl, hp⟩
        · simp [hrem] at hr
          subst hr
          exact ⟨rfl, hp⟩
  · simp [hc] at hr

/-- Once connected, a resolved request with a non-empty prompt is sent exactly
once, whatever the remote call returns. -/
theorem calls_of_ready {Conn Err LP : Type} (env : Env Conn Err LP) (d : QueryData)
    (conn : Conn) (cr : CompletionRequest)
    (hc : env.connect d = (conn, none))
    (hres : resolveRequest env d = Except.ok cr) (hp : cr.Prompt ≠ "") :
    (listCompletion env d).calls = [cr] := by
  unfold listCompletion
  rw [hc]
  simp only [hres]
  rw [if_neg hp]
  rcases env.CreateCompletion conn cr with ⟨resp, _ | e⟩ <;> rfl

/-- The streaming loop appends one row per choice, in the order of the
choices, each with the given prompt. -/
theorem streamChoices_eq {LP : Type} (Prompt : String) (cs : List (CompletionChoice LP))
    (streamed : List (CompletionRow LP)) :
    streamChoices Prompt cs streamed =
      streamed ++ cs.map (fun c => (⟨c, Prompt⟩ : CompletionRow LP)) := by
  induction cs generalizing streamed with
  | nil => simp [streamChoices]
  | cons c rest ih => simp [streamChoices, ih]

/-- Once connected, an empty resolved prompt ends the invocation with no error,
no row and no remote call. -/
theorem outcome_of_empty_prompt {Conn Err LP : Type} (env : Env Conn Err LP)
    (d : QueryData) (conn : Conn) (cr : CompletionRequest)
    (hc : env.connect d = (conn, none))
    (hres : resolveRequest env d = Except.ok cr) (hp : cr.Prompt = "") :
    listCompletion env d = { err := none, rows := [], calls := [] } := by
  unfold listCompletion
  rw [hc]
  simp only [hres]
  rw [if_pos hp]

/-- The prompt qualifier plays no part in the settings block. -/
theorem overlaySettings_prompt_irrelevant {Conn Err LP : Type} (env : Env Conn Err LP)
    (p q s : Option String) (cr : CompletionRequest) :
    overlaySettings env { prompt := p, settings := s } cr =
      overlaySettings env { prompt := q, settings := s } cr := rfl

/-- A present string-valued prompt qualifier fixes the prompt of the resolved
request. -/
theorem resolveRequest_prompt_of_direct {Conn Err LP : Type} (env : Env Conn Err LP)
    (d : QueryData) (B : String) (cr : CompletionRequest)
    (hp : d.prompt = some B)
    (hres : resolveRequest env d = Except.ok cr) : cr.Prompt = B := by
  unfold resolveRequest at hres
  rcases hov : overlaySettings env d defaultCompletionRequest with e | cr1
  · simp [hov] at hres
  · simp [hov, overlayPrompt, hp, EqualsQualString] at hres
    rw [← hres]

/-- The request is resolved whenever the settings are absent, empty or parse. -/
theorem resolveRequest_ok_of_settings {Conn Err LP : Type} (env : Env Conn Err LP)
    (d : QueryData)
    (hs : GetJsonbValue d.settings = "" ∨
      (env.Unmarshal (GetJsonbValue d.settings)).2 = none) :
    ∃ cr, resolveRequest env d = Except.ok cr := by
  have hex : ∃ cr1, overlaySettings env d defaultCompletionRequest = Except.ok cr1 := by
    by_cases he : GetJsonbValue d.settings = ""
    · exact ⟨_, overlaySettings_of_empty env d _ he⟩
    · rcases hs with hs | hs
      · exact absurd hs he
      · rcases hu : env.Unmarshal (GetJsonbValue d.settings) with ⟨O, oe⟩
        rw [hu] at hs
        simp only at hs
        subst hs
        exact ⟨_, overlaySettings_of_parsed env d _ O he hu⟩
  obtain ⟨cr1, hcr1⟩ := hex
  exact ⟨overlayPrompt d cr1, by simp [resolveRequest, hcr1]⟩

/-- No invocation calls the remote service more than once. -/
theorem calls_length_le_one {Conn Err LP : Type} (env : Env Conn Err LP) (d : QueryData) :
    (listCompletion env d).calls.length ≤ 1 := by
  unfold listCompletion
  rcases env.connect d with ⟨conn, _ | e⟩
  · rcases resolveRequest env d with e | cr
    · simp
    · by_cases hp : cr.Prompt = ""
      · simp [hp]
      · simp only [if_neg hp]
        rcases env.CreateCompletion conn cr with ⟨resp, _ | e⟩ <;> simp
  · simp

/-! ## Claims -/

/-- C1. Resolving with a settings overlay `O` and no direct prompt qualifier
yields the default configuration with exactly the fields present in `O`
replaced by the values of `O` and every absent field unchanged, for all sixteen
fields; once connected, this request is the one sent when its prompt is not
empty. -/
theorem listCompletion_settings_overlay {Conn Err LP : Type} (env : Env Conn Err LP)
    (d : QueryData) (O : CompletionRequestQual)
    (hs : GetJsonbValue d.settings ≠ "")
    (hO : env.Unmarshal (GetJsonbValue d.settings) = (O, none))
    (hp : d.prompt = none) :
    ∃ cr, resolveRequest env d = Except.ok cr ∧
      FieldOverlaid O.Model defaultCompletionRequest.Model cr.Model ∧
      FieldOverlaid O.Prompt defaultCompletionRequest.Prompt cr.Prompt ∧
      FieldOverlaid O.Suffix defaultCompletionRequest.Suffix cr.Suffix ∧
      FieldOverlaid O.MaxTokens defaultCompletionRequest.MaxTokens cr.MaxTokens ∧
      FieldOverlaid O.Temperature defaultCompletionRequest.Temperature cr.Temperature ∧
      FieldOverlaid O.TopP defaultCompletionRequest.TopP cr.TopP ∧
      FieldOverlaid O.N defaultCompletionRequest.N cr.N ∧
      FieldOverlaid O.Stream defaultCompletionRequest.Stream cr.Stream ∧
      FieldOverlaid O.LogProbs defaultCompletionRequest.LogProbs cr.LogProbs ∧
      FieldOverlaid O.Echo defaultCompletionRequest.Echo cr.Echo ∧
      FieldOverlaid (O.Stop.map some) defaultCompletionRequest.Stop cr.Stop ∧
      FieldOverlaid O.PresencePenalty defaultCompletionRequest.PresencePenalty cr.PresencePenalty ∧
      FieldOverlaid O.FrequencyPenalty defaultCompletionRequest.FrequencyPenalty cr.FrequencyPenalty ∧
      FieldOverlaid O.BestOf defaultCompletionRequest.BestOf cr.BestOf ∧
      FieldOverlaid (O.LogitBias.map some) defaultCompletionRequest.LogitBias cr.LogitBias ∧
      FieldOverlaid O.User defaultCompletionRequest.User cr.User ∧
      (∀ conn, env.connect d = (conn, none) → cr.Prompt ≠ "" →
        (listCompletion env d).calls = [cr]) := by
  have hres : resolveRequest env d =
      Except.ok (applySettings defaultCompletionRequest O) := by
    simp [resolveRequest, overlaySettings_of_parsed env d _ O hs hO, overlayPrompt, hp]
  refine ⟨applySettings defaultCompletionRequest O, hres, ?_⟩
  refine ⟨?_, ?_, ?_, ?_, ?_, ?_, ?_, ?_, ?_, ?_, ?_, ?_, ?_, ?_, ?_, ?_, ?_⟩
  case refine_17 =>
    intro conn hc hne
    exact calls_of_ready env d conn _ hc hres hne
  all_goals
    rw [applySettings_eq]
    exact fieldOverlaid_getD _ _

/-- C1, at a concrete input: the settings
`{"model":"text-ada-001","max_tokens":16,"stop":[]}` replace the model and the
token limit and leave the temperature at its default. -/
theorem listCompletion_settings_overlay_witness :
    GetJsonbValue adaQuery.settings ≠ "" ∧ adaQuery.prompt = none ∧
    ∃ cr, resolveRequest sampleEnv adaQuery = Except.ok cr ∧
      cr.Model = "text-ada-001" ∧ cr.MaxTokens = 16 ∧ cr.Temperature = f32_0_7 ∧
      cr.BestOf = 1 := by
  have hs : GetJsonbValue adaQuery.settings ≠ "" := by decide
  have hO : sampleEnv.Unmarshal (GetJsonbValue adaQuery.settings) =
      ({ zeroQual with Model := some "text-ada-001", MaxTokens := some 16,
                       Stop := some [] }, none) := by decide
  obtain ⟨cr, hres, hModel, _, _, hMax, hTemp, _, _, _, _, _, _, _, _, hBest, _⟩ :=
    listCompletion_settings_overlay sampleEnv adaQuery _ hs hO rfl
  exact ⟨hs, rfl, cr, hres, hModel.1 _ rfl, hMax.1 _ rfl, hTemp.2 rfl, hBest.2 rfl⟩

/-- C2. A present direct prompt qualifier with value `B` overrides any prompt
embedded in the settings: whenever the settings are absent, empty or parse, the
request is resolved and its prompt is `B`; and every request sent to the remote
service carries the prompt `B`. -/
theorem direct_prompt_overrides_settings {Conn Err LP : Type} (env : Env Conn Err LP)
    (d : QueryData) (B : String)
    (hp : d.prompt = some B)
    (hs : GetJsonbValue d.settings = "" ∨
      (env.Unmarshal (GetJsonbValue d.settings)).2 = none) :
    (∃ cr, resolveRequest env d = Except.ok cr ∧ cr.Prompt = B) ∧
    ∀ r ∈ (listCompletion env d).calls, r.Prompt = B := by
  refine ⟨?_, fun r hr =>
    resolveRequest_prompt_of_direct env d B r hp (calls_subset_resolved env d r hr).1⟩
  obtain ⟨cr, hres⟩ := resolveRequest_ok_of_settings env d hs
  exact ⟨cr, hres, resolveRequest_prompt_of_direct env d B cr hp hres⟩

/-- C2, at the input of the claim: settings `{"prompt":"A"}` and direct prompt
`"B"` resolve to the prompt `"B"`. -/
theorem direct_prompt_overrides_settings_witness :
    (sampleEnv.Unmarshal (GetJsonbValue overrideQuery.settings)).1.Prompt = some "A" ∧
    overrideQuery.prompt = some "B" ∧
    (∃ cr, resolveRequest sampleEnv overrideQuery = Except.ok cr ∧ cr.Prompt = "B") ∧
    ∀ r ∈ (listCompletion sampleEnv overrideQuery).calls, r.Prompt = "B" :=
  ⟨by decide, rfl,
    direct_prompt_overrides_settings sampleEnv overrideQuery "B" rfl (Or.inr (by decide))⟩

/-- C3. With the settings qualifier absent or empty and a non-empty direct
prompt `p`, the resolved request is the fixed default configuration with prompt
`p`; every request passed to the remote completion call is this one, and once
connected it is passed exactly once; the settings parser has no influence on the
invocation. -/
theorem default_request_without_settings {Conn Err LP : Type} (env : Env Conn Err LP)
    (d : QueryData) (p : String)
    (hs : d.settings = none ∨ d.settings = some "")
    (hp : d.prompt = some p) (hne : p ≠ "") :
    resolveRequest env d = Except.ok
      { Model := "text-davinci-003", Prompt := p, Suffix := "", MaxTokens := 256,
        Temperature := f32_0_7, TopP := f32_1, N := 0, Stream := false, LogProbs := 0,
        Echo := false, Stop := some [], PresencePenalty := f32_0,
        FrequencyPenalty := f32_0, BestOf := 1, LogitBias := none, User := "" } ∧
    (∀ conn, env.connect d = (conn, none) → (listCompletion env d).calls =
      [{ Model := "text-davinci-003", Prompt := p, Suffix := "", MaxTokens := 256,
         Temperature := f32_0_7, TopP := f32_1, N := 0, Stream := false, LogProbs := 0,
         Echo := false, Stop := some [], PresencePenalty := f32_0,
         FrequencyPenalty := f32_0, BestOf := 1, LogitBias := none, User := "" }]) ∧
    (∀ r ∈ (listCompletion env d).calls, r =
      { Model := "text-davinci-003", Prompt := p, Suffix := "", MaxTokens := 256,
        Temperature := f32_0_7, TopP := f32_1, N := 0, Stream := false, LogProbs := 0,
        Echo := false, Stop := some [], PresencePenalty := f32_0,
        FrequencyPenalty := f32_0, BestOf := 1, LogitBias := none, User := "" }) ∧
    (∀ u, listCompletion { env with Unmarshal := u } d = listCompletion env d) := by
  have he : GetJsonbValue d.settings = "" := by
    rcases hs with hs | hs <;> rw [hs] <;> rfl
  have hres : ∀ env1 : Env Conn Err LP, resolveRequest env1 d = Except.ok
      { Model := "text-davinci-003", Prompt := p, Suffix := "", MaxTokens := 256,
        Temperature := f32_0_7, TopP := f32_1, N := 0, Stream := false, LogProbs := 0,
        Echo := false, Stop := some [], PresencePenalty := f32_0,
        FrequencyPenalty := f32_0, BestOf := 1, LogitBias := none, User := "" } := by
    intro env1
    simp [resolveRequest, overlaySettings_of_empty env1 d _ he, overlayPrompt, hp,
      EqualsQualString, defaultCompletionRequest]
  refine ⟨hres env, ?_, ?_, ?_⟩
  · intro conn hc
    exact calls_of_ready env d conn _ hc (hres env) hne
  · intro r hr
    have h := (calls_subset_resolved env d r hr).1
    rw [hres env] at h
    exact (Except.ok.inj h).symm
  · intro u
    unfold listCompletion
    simp only [hres]

/-- C3, at a concrete input: the query `where prompt = 'Hello'` sends the
default configuration with prompt `"Hello"`. -/
theorem default_request_without_settings_witness :
    (listCompletion sampleEnv helloQuery).calls =
      [{ Model := "text-davinci-003", Prompt := "Hello", Suffix := "", MaxTokens := 256,
         Temperature := f32_0_7, TopP := f32_1, N := 0, Stream := false, LogProbs := 0,
         Echo := false, Stop := some [], PresencePenalty := f32_0,
         FrequencyPenalty := f32_0, BestOf := 1, LogitBias := none, User := "" }] :=
  (default_request_without_settings sampleEnv helloQuery "Hello" (Or.inl rfl) rfl
    (by decide)).2.1 () rfl

/-- C4. Once connected, for a resolved request with non-empty prompt and a
successful remote response with choices `c_0 .. c_{N-1}`, the invocation returns
no error and streams exactly `N` rows, the `i`-th row being choice `c_i`
unchanged, paired with the resolved prompt. -/
theorem rows_of_successful_response {Conn Err LP : Type} (env : Env Conn Err LP)
    (d : QueryData) (conn : Conn) (cr : CompletionRequest) (resp : CompletionResponse LP)
    (hc : env.connect d = (conn, none))
    (hres : resolveRequest env d = Except.ok cr) (hp : cr.Prompt ≠ "")
    (hrem : env.CreateCompletion conn cr = (resp, none)) :
    (listCompletion env d).err = none ∧
    (listCompletion env d).rows =
      resp.Choices.map (fun c => (⟨c, cr.Prompt⟩ : CompletionRow LP)) ∧
    (listCompletion env d).rows.length = resp.Choices.length ∧
    (∀ i (h : i < resp.Choices.length),
      (listCompletion env d).rows[i]? = some ⟨resp.Choices[i], cr.Prompt⟩) ∧
    (∀ row ∈ (listCompletion env d).rows, row.Prompt = cr.Prompt) := by
  have hout : listCompletion env d =
      { err := none, rows := resp.Choices.map (fun c => (⟨c, cr.Prompt⟩ : CompletionRow LP)),
        calls := [cr] } := by
    unfold listCompletion
    rw [hc]
    simp only [hres]
    rw [if_neg hp, hrem]
    simp [streamChoices_eq]
  rw [hout]
  refine ⟨rfl, rfl, by simp, ?_, ?_⟩
  · intro i h
    simp [List.getElem?_map, List.getElem?_eq_getElem h]
  · intro row hrow
    simp only [List.mem_map] at hrow
    obtain ⟨c, _, hc⟩ := hrow
    rw [← hc]

/-- C4, at a concrete input: the two choices of the sample response become two
rows with the prompt `"Hello"`, in the order of the response. -/
theorem rows_of_successful_response_witness :
    (listCompletion sampleEnv helloQuery).rows =
      [⟨⟨" world", 0, "stop", 7⟩, "Hello"⟩, ⟨⟨" there", 1, "length", 9⟩, "Hello"⟩] :=
  (rows_of_successful_response sampleEnv helloQuery ()
    { defaultCompletionRequest with Prompt := "Hello" } sampleResponse rfl
    rfl (by decide) rfl).2.1

/-- C5, refuted as stated: with a failing connection the truncated settings
text `{"prompt":` does not make `listCompletion` return the parse error; it
returns the connection error. -/
theorem malformed_settings_counterexample :
    GetJsonbValue malformedQuery.settings ≠ "" ∧
    (noConnEnv.Unmarshal (GetJsonbValue malformedQuery.settings)).2 =
      some "unexpected end of JSON input" ∧
    (listCompletion noConnEnv malformedQuery).err = some "api_key must be configured" ∧
    (listCompletion noConnEnv malformedQuery).err ≠
      (noConnEnv.Unmarshal (GetJsonbValue malformedQuery.settings)).2 := by
  decide

/-- C5, amended. Once connection acquisition has succeeded, for every non-empty
settings string that fails to parse, whatever the parser left in the overlay
and whatever the direct prompt qualifier, `listCompletion` returns the parse
error, streams no row and sends no request. -/
theorem malformed_settings_abort {Conn Err LP : Type} (env : Env Conn Err LP)
    (d : QueryData) (conn : Conn) (q : CompletionRequestQual) (e : Err)
    (hc : env.connect d = (conn, none))
    (hs : GetJsonbValue d.settings ≠ "")
    (hq : env.Unmarshal (GetJsonbValue d.settings) = (q, some e)) :
    listCompletion env d = { err := some e, rows := [], calls := [] } := by
  have hres : resolveRequest env d = Except.error e := by
    simp [resolveRequest, overlaySettings_of_malformed env d _ q e hs hq]
  unfold listCompletion
  rw [hc]
  simp only [hres]

/-- C5, amended, at a concrete input: the truncated settings text with the
direct prompt `"Hello"` gives the parse error, no row and no call. -/
theorem malformed_settings_abort_witness :
    listCompletion sampleEnv malformedPromptQuery =
      { err := some "unexpected end of JSON input", rows := [], calls := [] } :=
  malformed_settings_abort sampleEnv malformedPromptQuery () zeroQual
    "unexpected end of JSON input" rfl (by decide) (by decide)

/-- C6. Once connected, for a resolved request with non-empty prompt, when the
remote completion call fails with error `e` the invocation returns exactly `e`
and streams no row, whatever choices the accompanying response value holds. -/
theorem remote_error_propagates {Conn Err LP : Type} (env : Env Conn Err LP)
    (d : QueryData) (conn : Conn) (cr : CompletionRequest) (resp : CompletionResponse LP)
    (e : Err)
    (hc : env.connect d = (conn, none))
    (hres : resolveRequest env d = Except.ok cr) (hp : cr.Prompt ≠ "")
    (hrem : env.CreateCompletion conn cr = (resp, some e)) :
    (listCompletion env d).err = some e ∧ (listCompletion env d).rows = [] := by
  have hout : listCompletion env d = { err := some e, rows := [], calls := [cr] } := by
    unfold listCompletion
    rw [hc]
    simp only [hres]
    rw [if_neg hp, hrem]
  rw [hout]
  exact ⟨rfl, rfl⟩

/-- C6, at a concrete input: the failing remote call of `remoteDownEnv` comes
with a response of two choices, and the invocation returns its error with no
row. -/
theorem remote_error_propagates_witness :
    (remoteDownEnv.CreateCompletion ()
      { defaultCompletionRequest with Prompt := "Hello" }).1.Choices.length = 2 ∧
    (listCompletion remoteDownEnv helloQuery).err = some "status code: 401" ∧
    (listCompletion remoteDownEnv helloQuery).rows = [] :=
  ⟨rfl, remote_error_propagates remoteDownEnv helloQuery ()
    { defaultCompletionRequest with Prompt := "Hello" } sampleResponse
    "status code: 401" rfl rfl (by decide) rfl⟩

/-- C7, refuted as stated: with a failing connection a query without any
qualifier, hence with neither a direct nor a settings-embedded prompt, returns
an error. -/
theorem no_prompt_counterexample :
    noQualsQuery.prompt = none ∧ noQualsQuery.settings = none ∧
    (listCompletion noConnEnv noQualsQuery).err = some "api_key must be configured" ∧
    (listCompletion noConnEnv noQualsQuery).err ≠ none := by
  decide

/-- C7, amended. Once connection acquisition has succeeded, given neither a
direct prompt qualifier nor a settings-embedded prompt (settings absent, empty,
or parsed to an overlay without prompt), `listCompletion` returns no error,
streams no row and sends no request. -/
theorem no_prompt_no_rows {Conn Err LP : Type} (env : Env Conn Err LP)
    (d : QueryData) (conn : Conn)
    (hc : env.connect d = (conn, none))
    (hp : d.prompt = none)
    (hs : GetJsonbValue d.settings = "" ∨
      ∃ O, env.Unmarshal (GetJsonbValue d.settings) = (O, none) ∧ O.Prompt = none) :
    listCompletion env d = { err := none, rows := [], calls := [] } := by
  by_cases he : GetJsonbValue d.settings = ""
  · refine outcome_of_empty_prompt env d conn defaultCompletionRequest hc ?_ rfl
    simp [resolveRequest, overlaySettings_of_empty env d _ he, overlayPrompt, hp]
  · rcases hs with hs | ⟨O, hO, hOp⟩
    · exact absurd hs he
    · refine outcome_of_empty_prompt env d conn (applySettings defaultCompletionRequest O)
        hc ?_ ?_
      · simp [resolveRequest, overlaySettings_of_parsed env d _ O he hO, overlayPrompt, hp]
      · rw [applySettings_eq]
        simp [hOp, defaultCompletionRequest]

/-- C7, amended, at a concrete input: the settings `{"model":"text-ada-001",
"max_tokens":16,"stop":[]}` without direct prompt give no row and no error. -/
theorem no_prompt_no_rows_witness :
    listCompletion sampleEnv adaQuery = { err := none, rows := [], calls := [] } :=
  no_prompt_no_rows sampleEnv adaQuery () rfl rfl
    (Or.inr ⟨{ zeroQual with Model := some "text-ada-001", MaxTokens := some 16,
                             Stop := some [] }, by decide, rfl⟩)

/-- C8, refuted as stated: with a failing connection the settings
`{"prompt":""}` without direct prompt resolve to the empty prompt, and yet
`listCompletion` does not terminate successfully: it returns the connection
error. -/
theorem empty_prompt_counterexample :
    (∃ cr, resolveRequest noConnEnv emptySettingsPromptQuery = Except.ok cr ∧
      cr.Prompt = "") ∧
    (listCompletion noConnEnv emptySettingsPromptQuery).err =
      some "api_key must be configured" ∧
    (listCompletion noConnEnv emptySettingsPromptQuery).err ≠ none :=
  ⟨⟨_, rfl, rfl⟩, by decide, by decide⟩

/-- C8, amended. Once connection acquisition has succeeded, whenever the final
resolved prompt is the empty string `listCompletion` terminates with no error,
no row and no remote call; this includes a present but empty direct prompt
qualifier, whatever prompt the settings hold, and settings whose prompt is the
empty string with no direct prompt. -/
theorem empty_prompt_no_rows {Conn Err LP : Type} (env : Env Conn Err LP)
    (d : QueryData) (conn : Conn)
    (hc : env.connect d = (conn, none)) :
    (∀ cr, resolveRequest env d = Except.ok cr → cr.Prompt = "" →
      listCompletion env d = { err := none, rows := [], calls := [] }) ∧
    (d.prompt = some "" →
      (GetJsonbValue d.settings = "" ∨
        (env.Unmarshal (GetJsonbValue d.settings)).2 = none) →
      listCompletion env d = { err := none, rows := [], calls := [] }) ∧
    (d.prompt = none → ∀ O, GetJsonbValue d.settings ≠ "" →
      env.Unmarshal (GetJsonbValue d.settings) = (O, none) → O.Prompt = some "" →
      listCompletion env d = { err := none, rows := [], calls := [] }) := by
  refine ⟨fun cr hres hp => outcome_of_empty_prompt env d conn cr hc hres hp, ?_, ?_⟩
  · intro hp hs
    obtain ⟨cr, hres⟩ := resolveRequest_ok_of_settings env d hs
    exact outcome_of_empty_prompt env d conn cr hc hres
      (resolveRequest_prompt_of_direct env d "" cr hp hres)
  · intro hp O he hO hOp
    refine outcome_of_empty_prompt env d conn (applySettings defaultCompletionRequest O)
      hc ?_ ?_
    · simp [resolveRequest, overlaySettings_of_parsed env d _ O he hO, overlayPrompt, hp]
    · rw [applySettings_eq]
      simp [hOp]

/-- C8, amended, at the inputs of the claim: settings `{"prompt":"A"}` with
direct prompt `""`, and settings `{"prompt":""}` with no direct prompt, both
give no row, no call and no error. -/
theorem empty_prompt_no_rows_witness :
    (sampleEnv.Unmarshal (GetJsonbValue emptyOverrideQuery.settings)).1.Prompt = some "A" ∧
    listCompletion sampleEnv emptyOverrideQuery =
      { err := none, rows := [], calls := [] } ∧
    listCompletion sampleEnv emptySettingsPromptQuery =
      { err := none, rows := [], calls := [] } :=
  ⟨by decide,
    (empty_prompt_no_rows sampleEnv emptyOverrideQuery () rfl).2.1 rfl (Or.inr (by decide)),
    (empty_prompt_no_rows sampleEnv emptySettingsPromptQuery () rfl).2.2 rfl
      { zeroQual with Prompt := some "" } (by decide) (by decide) rfl⟩

/-- C9. An invocation that reaches the Ready state (connected, settings
resolved, prompt not empty) calls the remote completion service exactly once,
with the resolved request, whatever that call returns; an invocation whose
resolved prompt is empty, or whose settings fail to parse, makes no remote call;
and no invocation makes more than one. -/
theorem one_remote_call_when_ready {Conn Err LP : Type} (env : Env Conn Err LP)
    (d : QueryData) :
    (∀ conn cr, env.connect d = (conn, none) → resolveRequest env d = Except.ok cr →
      cr.Prompt ≠ "" →
      (listCompletion env d).calls = [cr] ∧
      ∀ resp e, env.CreateCompletion conn cr = (resp, some e) →
        (listCompletion env d).calls = [cr] ∧ (listCompletion env d).err = some e) ∧
    (∀ cr, resolveRequest env d = Except.ok cr → cr.Prompt = "" →
      (listCompletion env d).calls = []) ∧
    (∀ q e, GetJsonbValue d.settings ≠ "" →
      env.Unmarshal (GetJsonbValue d.settings) = (q, some e) →
      (listCompletion env d).calls = []) ∧
    (listCompletion env d).calls.length ≤ 1 := by
  refine ⟨?_, ?_, ?_, calls_length_le_one env d⟩
  · intro conn cr hc hres hp
    refine ⟨calls_of_ready env d conn cr hc hres hp, ?_⟩
    intro resp e hrem
    refine ⟨calls_of_ready env d conn cr hc hres hp, ?_⟩
    unfold listCompletion
    rw [hc]
    simp only [hres]
    rw [if_neg hp, hrem]
  · intro cr hres hp
    apply List.eq_nil_iff_forall_not_mem.mpr
    intro r hr
    obtain ⟨h1, h2⟩ := calls_subset_resolved env d r hr
    rw [hres] at h1
    exact h2 ((Except.ok.inj h1) ▸ hp)
  · intro q e hs hq
    apply List.eq_nil_iff_forall_not_mem.mpr
    intro r hr
    obtain ⟨h1, _⟩ := calls_subset_resolved env d r hr
    simp [resolveRequest, overlaySettings_of_malformed env d _ q e hs hq] at h1

/-- C9, at concrete inputs: a failing remote call is made once and not
retried; an empty resolved prompt and malformed settings make no call. -/
theorem one_remote_call_when_ready_witness :
    (listCompletion remoteDownEnv helloQuery).calls =
      [{ defaultCompletionRequest with Prompt := "Hello" }] ∧
    (listCompletion remoteDownEnv helloQuery).err = some "status code: 401" ∧
    (listCompletion sampleEnv emptyOverrideQuery).calls = [] ∧
    (listCompletion sampleEnv malformedQuery).calls = [] :=
  ⟨((one_remote_call_when_ready remoteDownEnv helloQuery).1 () _ rfl rfl
      (by decide)).1,
    (((one_remote_call_when_ready remoteDownEnv helloQuery).1 () _ rfl rfl
      (by decide)).2 sampleResponse "status code: 401" rfl).2,
    (one_remote_call_when_ready sampleEnv emptyOverrideQuery).2.1
      { defaultCompletionRequest with Prompt := "" } rfl rfl,
    (one_remote_call_when_ready sampleEnv malformedQuery).2.2.1 zeroQual
      "unexpected end of JSON input" (by decide) (by decide)⟩

/-- C10. The direct prompt qualifier affects only the prompt field: with the
same settings, the request resolved with any prompt qualifier `p` exists
whenever the request resolved without prompt qualifier does, and agrees with it
on each of the fifteen fields other than the prompt. -/
theorem direct_prompt_frame {Conn Err LP : Type} (env : Env Conn Err LP)
    (p s : Option String) (cr0 : CompletionRequest)
    (h0 : resolveRequest env { prompt := none, settings := s } = Except.ok cr0) :
    ∃ cr, resolveRequest env { prompt := p, settings := s } = Except.ok cr ∧
      cr.Model = cr0.Model ∧
      cr.Suffix = cr0.Suffix ∧
      cr.MaxTokens = cr0.MaxTokens ∧
      cr.Temperature = cr0.Temperature ∧
      cr.TopP = cr0.TopP ∧
      cr.N = cr0.N ∧
      cr.Stream = cr0.Stream ∧
      cr.LogProbs = cr0.LogProbs ∧
      cr.Echo = cr0.Echo ∧
      cr.Stop = cr0.Stop ∧
      cr.PresencePenalty = cr0.PresencePenalty ∧
      cr.FrequencyPenalty = cr0.FrequencyPenalty ∧
      cr.BestOf = cr0.BestOf ∧
      cr.LogitBias = cr0.LogitBias ∧
      cr.User = cr0.User := by
  unfold resolveRequest at h0 ⊢
  rw [overlaySettings_prompt_irrelevant env p none s]
  rcases hov : overlaySettings env { prompt := none, settings := s }
      defaultCompletionRequest with e | cr1
  · simp [hov] at h0
  · simp only [hov, overlayPrompt, Except.ok.injEq] at h0 ⊢
    subst h0
    cases p <;> exact ⟨_, rfl, rfl, rfl, rfl, rfl, rfl, rfl, rfl, rfl, rfl, rfl, rfl, rfl, rfl,
      rfl, rfl⟩

/-- C10, at a concrete input: with the settings `{"model":"text-ada-001",
"max_tokens":16,"stop":[]}`, adding the direct prompt `"Hello"` keeps the model
and the token limit of the settings. -/
theorem direct_prompt_frame_witness :
    ∃ cr, resolveRequest sampleEnv
        { prompt := some "Hello",
          settings := some settingsAda } = Except.ok cr ∧
      cr.Model = "text-ada-001" ∧ cr.MaxTokens = 16 ∧ cr.Stop = some [] := by
  obtain ⟨cr, hres, hModel, _, hMax, _, _, _, _, _, _, hStop, _⟩ :=
    direct_prompt_frame sampleEnv (some "Hello")
      (some settingsAda)
      { defaultCompletionRequest with Model := "text-ada-001", MaxTokens := 16 } rfl
  exact ⟨cr, hres, hModel, hMax, hStop⟩

/-- C11. Connection acquisition is checked before anything else: when `connect`
fails with error `e`, `listCompletion` returns `e`, streams no row and makes no
remote call, for every combination of qualifiers; neither the settings parser
nor the remote service has any influence on the invocation. -/
theorem connect_error_first {Conn Err LP : Type} (env : Env Conn Err LP)
    (d : QueryData) (conn : Conn) (e : Err)
    (hc : env.connect d = (conn, some e)) :
    listCompletion env d = { err := some e, rows := [], calls := [] } ∧
    (listCompletion env d).err = some e ∧
    (listCompletion env d).rows = [] ∧
    (listCompletion env d).calls = [] ∧
    (∀ u c, listCompletion { env with Unmarshal := u, CreateCompletion := c } d =
      listCompletion env d) := by
  have hout : ∀ env1 : Env Conn Err LP, env1.connect d = (conn, some e) →
      listCompletion env1 d = { err := some e, rows := [], calls := [] } := by
    intro env1 h1
    unfold listCompletion
    rw [h1]
  refine ⟨hout env hc, ?_, ?_, ?_, ?_⟩
  · rw [hout env hc]
  · rw [hout env hc]
  · rw [hout env hc]
  · intro u c
    rw [hout env hc]
    exact hout _ hc

/-- C11, at concrete inputs: with a failing connection, a query without
qualifiers, a query with an empty direct prompt, and a query with malformed
settings and a prompt all return the connection error with no row and no call,
where the connected invocation returns no error for the first and the parse
error for the last. -/
theorem connect_error_first_witness :
    listCompletion noConnEnv noQualsQuery =
      { err := some "api_key must be configured", rows := [], calls := [] } ∧
    listCompletion noConnEnv emptyOverrideQuery =
      { err := some "api_key must be configured", rows := [], calls := [] } ∧
    listCompletion noConnEnv malformedPromptQuery =
      { err := some "api_key must be configured", rows := [], calls := [] } ∧
    (listCompletion sampleEnv noQualsQuery).err = none ∧
    (listCompletion sampleEnv malformedPromptQuery).err =
      some "unexpected end of JSON input" :=
  ⟨(connect_error_first noConnEnv noQualsQuery () "api_key must be configured" rfl).1,
    (connect_error_first noConnEnv emptyOverrideQuery () "api_key must be configured"
      rfl).1,
    (connect_error_first noConnEnv malformedPromptQuery () "api_key must be configured"
      rfl).1,
    by decide, by decide⟩

end OpenAI
